import Mathlib

set_option maxRecDepth 20000

/-!
Verification development for the matopt text-normalization and block-routing
pipeline: the code-block guard and LaTeX-delimiter normalizer
(`preprocessLaTeX` in frontend/src/utils/formulaHelpers.ts), the inline
segment splitter (`renderSegments` in the InlineMathText component), the
fenced-block dispatcher (the `code` component of MarkdownRenderer.tsx) and
the chart payload decoder (ChartRenderer).

Documents are modelled as `List Char`.  JavaScript regular-expression
replacement is modelled pass by pass: each regex used by the source is
hand-compiled into a deterministic scanner that reproduces the JS engine's
leftmost-match, lazy/greedy-with-backtracking semantics, and the global
replace loop walks the string left to right, continuing after each match,
exactly as `String.prototype.replace` with the `g` flag does.  Note that in
a JS *string* replacement argument the sequence of two dollar characters is
an escape denoting a single literal dollar, which the model reproduces.
-/

namespace Matopt

def tick : Char := Char.ofNat 96

def lbrace : Char := Char.ofNat 123

def rbrace : Char := Char.ofNat 125

/-- ASCII JS whitespace, as matched by the regex class backslash-s and by
`String.prototype.trim` (the non-ASCII members of the JS class are outside
the scope of the claims). -/
def isWsChar (c : Char) : Bool :=
  c == ' ' || c == '\t' || c == '\n' || c == '\r' ||
  c == Char.ofNat 11 || c == Char.ofNat 12

/-- Line terminators recognised by the JS multiline anchors. -/
def isLineBreakChar (c : Char) : Bool := c == '\n' || c == '\r'

/-- JS `String.prototype.trim` on a character list. -/
def trimL (s : List Char) : List Char :=
  ((s.dropWhile isWsChar).reverse.dropWhile isWsChar).reverse

/-! ## Code-Block Guard

`preprocessLaTeX` splits its input on the regex `(triple-tick lazy-body
triple-tick)` with one capture group, so `String.split` alternates
non-code segments (even indices) with the captured fences (odd indices).
`splitTicks` finds the earliest occurrence of three consecutive backticks,
the primitive from which the fence matches are assembled. -/

def splitTicks : List Char → Option (List Char × List Char)
  | [] => none
  | c :: t =>
    if c = tick ∧ t.take 2 = [tick, tick] then some ([], t.drop 2)
    else
      match splitTicks t with
      | some (p, r) => some (c :: p, r)
      | none => none

inductive Span where
  | prose (content : List Char)
  | code (content : List Char)
deriving DecidableEq

def Span.content : Span → List Char
  | .prose s => s
  | .code s => s

/-- The guard's split, fuelled (each iteration consumes at least the six
fence characters, so the top-level fuel of `length + 1` never runs out).
A fence match needs an opening triple tick and a later closing triple
tick; when either is missing the whole remaining text is one non-code
segment, exactly as `String.split` leaves unmatched text in place. -/
def guardSplitF : Nat → List Char → List Span
  | 0, s => [Span.prose s]
  | fuel+1, s =>
    match splitTicks s with
    | none => [Span.prose s]
    | some (pre, t) =>
      match splitTicks t with
      | none => [Span.prose s]
      | some (body, post) =>
        Span.prose pre ::
          Span.code ([tick, tick, tick] ++ body ++ [tick, tick, tick]) ::
          guardSplitF fuel post

def guardSplit (s : List Char) : List Span := guardSplitF (s.length + 1) s

/-! ## Delimiter Normalizer: the four replace passes of
`_processNonCodeSegment`. -/

/-- Earliest occurrence of the two-character sequence `a b`; returns the
text before and after it. -/
def splitSeq2 (a b : Char) : List Char → Option (List Char × List Char)
  | [] => none
  | c :: t =>
    if c = a ∧ t.head? = some b then some ([], t.tail)
    else
      match splitSeq2 a b t with
      | some (p, r) => some (c :: p, r)
      | none => none

/-- Leftmost match of a backslash-bracket pair regex
(backslash `op`, lazy any-character group, backslash `cl`): the lazy group
makes the closing pair the earliest one after the opening pair. -/
def findBS (op cl : Char) (s : List Char) :
    Option (List Char × List Char × List Char) :=
  match splitSeq2 '\\' op s with
  | none => none
  | some (pre, t) =>
    match splitSeq2 '\\' cl t with
    | none => none
    | some (inner, rest) => some (pre, inner, rest)

/-- Global replace of a backslash-bracket pair regex with a function
replacement `wrap` applied to the captured group. -/
def replBS (op cl : Char) (wrap : List Char → List Char) :
    Nat → List Char → List Char
  | 0, s => s
  | fuel+1, s =>
    match findBS op cl s with
    | none => s
    | some (pre, inner, rest) => pre ++ wrap inner ++ replBS op cl wrap fuel rest

/-- The replacement emitted for a display block: newline, two dollars,
newline, body, newline, two dollars, newline (a function replacement in the
source, so the dollars are literal). -/
def dollarBlock (inner : List Char) : List Char :=
  '\n' :: '$' :: '$' :: '\n' :: inner ++ '\n' :: '$' :: '$' :: '\n' :: []

def wrapDisplay (inner : List Char) : List Char := dollarBlock (trimL inner)

def wrapInlineTrim (inner : List Char) : List Char := '$' :: trimL inner ++ ['$']

def wrapInlineRaw (inner : List Char) : List Char := '$' :: inner ++ ['$']

/-- End-of-line test for the JS multiline dollar anchor: end of input or a
line terminator next. -/
def eolOk : List Char → Bool
  | [] => true
  | c :: _ => isLineBreakChar c

/-- Tail of the lone-dollar-block pattern: a literal newline, greedy
whitespace star, a literal dollar, then the end-of-line anchor.  The greedy
star is tried longest first (JS backtracking); returns the text after the
match. -/
def tailM3 (v : List Char) : Option (List Char) :=
  match v with
  | '\n' :: u =>
    let w := (u.takeWhile isWsChar).length
    ((List.range (w + 1)).reverse).findSome? fun j =>
      if u.get? j = some '$' ∧ eolOk (u.drop (j + 1)) then some (u.drop (j + 1))
      else none
  | _ => none

/-- The lone-dollar-block pattern of step 3 tried at the start of `s`
(the caller has already checked the line-start anchor): a literal dollar,
greedy whitespace star, newline, lazy any-character group, then `tailM3`.
Backtracking order: the greedy star longest first, the lazy group shortest
first.  Returns the captured group and the text after the match. -/
def matchM3At (s : List Char) : Option (List Char × List Char) :=
  match s with
  | '$' :: t =>
    let w := (t.takeWhile isWsChar).length
    ((List.range (w + 1)).reverse).findSome? fun k =>
      if t.get? k = some '\n' then
        let u := t.drop (k + 1)
        (List.range (u.length + 1)).findSome? fun m =>
          match tailM3 (u.drop m) with
          | some rest => some (u.take m, rest)
          | none => none
      else none
  | _ => none

/-- Step 3 of `_processNonCodeSegment`: global multiline replace of the
lone-dollar-block pattern by a display block (a function replacement, so
the dollars are literal).  `ls` records whether the current position is at
a line start; a match always ends in a dollar character, so scanning
resumes off a line start. -/
def replM3 : Nat → Bool → List Char → List Char
  | 0, _, s => s
  | fuel+1, ls, s =>
    match (if ls then matchM3At s else none) with
    | some (inner, rest) => dollarBlock (trimL inner) ++ replM3 fuel false rest
    | none =>
      match s with
      | [] => []
      | c :: t => c :: replM3 fuel (isLineBreakChar c) t

/-- Step 4a: global replace of (group: not newline, not dollar) optional
newline, two dollars — with the *string* replacement group, newline,
newline, double-dollar-escape.  In a JS string replacement two dollars
denote one literal dollar, so the emitted text is the group, two newlines
and a single dollar. -/
def repl4a : Nat → List Char → List Char
  | 0, s => s
  | _+1, [] => []
  | fuel+1, c :: t =>
    if c ≠ '\n' ∧ c ≠ '$' then
      match t with
      | '\n' :: '$' :: '$' :: r => c :: '\n' :: '\n' :: '$' :: repl4a fuel r
      | '$' :: '$' :: r => c :: '\n' :: '\n' :: '$' :: repl4a fuel r
      | _ => c :: repl4a fuel t
    else c :: repl4a fuel t

/-- Step 4b: global replace of two dollars, optional newline, (group: not
newline, not dollar) — with the *string* replacement double-dollar-escape,
newline, newline, group: one literal dollar, two newlines, the group.
When the pattern fails at a double dollar the scan advances one character,
so the second dollar can start a new attempt. -/
def repl4b : Nat → List Char → List Char
  | 0, s => s
  | _+1, [] => []
  | fuel+1, '$' :: '$' :: '\n' :: c :: r =>
    if c ≠ '\n' ∧ c ≠ '$' then '$' :: '\n' :: '\n' :: c :: repl4b fuel r
    else '$' :: repl4b fuel ('$' :: '\n' :: c :: r)
  | fuel+1, '$' :: '$' :: c :: r =>
    if c ≠ '\n' ∧ c ≠ '$' then '$' :: '\n' :: '\n' :: c :: repl4b fuel r
    else '$' :: repl4b fuel ('$' :: c :: r)
  | fuel+1, c :: t => c :: repl4b fuel t

/-- `_processNonCodeSegment`: the four replace passes in source order. -/
def processSeg (s : List Char) : List Char :=
  let s1 := replBS '[' ']' wrapDisplay (s.length + 1) s
  let s2 := replBS '(' ')' wrapInlineTrim (s1.length + 1) s1
  let s3 := replM3 (s2.length + 1) true s2
  let s4 := repl4a (s3.length + 1) s3
  repl4b (s4.length + 1) s4

/-- Per-span action of `preprocessLaTeX`: code segments (odd split indices)
pass through unchanged, the rest go through `_processNonCodeSegment`. -/
def renderSpan : Span → List Char
  | .prose s => processSeg s
  | .code s => s

def preprocessL (s : List Char) : List Char :=
  ((guardSplit s).map renderSpan).flatten

/-- `preprocessLaTeX` from formulaHelpers.ts. -/
def preprocessLaTeX (s : String) : String := String.mk (preprocessL s.data)

/-! ## Inline Segment Splitter (`renderSegments` in InlineMathText). -/

inductive Run where
  | text (s : String)
  | math (s : String)
deriving DecidableEq

/-- Leftmost match of the dollar-pair regex: a dollar, a lazy group of one
or more non-dollar characters, a dollar.  The lazy group ends at the next
dollar; a position where the next character is a dollar or where no closing
dollar follows yields no match there and the scan advances. -/
def findDollarMatch : List Char → Option (List Char × List Char × List Char)
  | [] => none
  | c :: t =>
    let fallback := (findDollarMatch t).map fun pr => (c :: pr.1, pr.2.1, pr.2.2)
    if c = '$' then
      let body := t.takeWhile (fun d => d != '$')
      if body ≠ [] ∧ t.drop body.length ≠ [] then
        some ([], body, (t.drop body.length).tail)
      else fallback
    else fallback

/-- JS `String.split` on the capturing dollar-pair regex: non-matching
parts alternate with the captured matches. -/
def splitDollarF : Nat → List Char → List (List Char)
  | 0, s => [s]
  | fuel+1, s =>
    match findDollarMatch s with
    | none => [s]
    | some (pre, body, rest) =>
      pre :: ('$' :: body ++ ['$']) :: splitDollarF fuel rest

/-- The component's per-part test: a part that starts with a dollar, ends
with a dollar and is longer than two characters is rendered as math with
the delimiters sliced off; everything else is plain text. -/
def classifyPart (p : List Char) : Run :=
  if p.head? = some '$' ∧ p.getLast? = some '$' ∧ 2 < p.length then
    Run.math (String.mk ((p.drop 1).dropLast))
  else Run.text (String.mk p)

/-- `renderSegments`: normalise backslash-paren inline math to dollar form
(no trimming in this component), split on the dollar-pair regex, classify
each part. -/
def renderSegments (s : List Char) : List Run :=
  let n := replBS '(' ')' wrapInlineRaw (s.length + 1) s
  (splitDollarF (n.length + 1) n).map classifyPart

/-- The splitter on strings (the spec's `splitInline`). -/
def splitInline (s : String) : List Run := renderSegments s.data

/-! ## Fenced-Block Dispatcher (the `code` component of
MarkdownRenderer.tsx). -/

inductive RenderTarget where
  | diagram
  | interactiveChart
  | staticChart
  | highlightedCode (lang : String)
  | verbatimCode
deriving DecidableEq

/-- The dispatcher's routing chain in source order: mermaid, plotly,
chartjs or chart, any other non-empty tag to the syntax highlighter with
the tag as language, and the empty tag to the inline code element. -/
def dispatch (lang : String) : RenderTarget :=
  if lang = "mermaid" then .diagram
  else if lang = "plotly" then .interactiveChart
  else if lang = "chartjs" then .staticChart
  else if lang = "chart" then .staticChart
  else if lang ≠ "" then .highlightedCode lang
  else .verbatimCode

/-! ## Chart payload decoder (ChartRenderer)

`ChartRenderer` does `JSON.parse` inside a try/catch, rejects the result
when `obj?.type` or `obj?.data` is falsy, defaults `height` to 360 unless
the parsed `height` is a number, and builds the options object by spreading
the payload options over built-in defaults.  The JSON grammar is embedded
below; numbers are modelled exactly as rationals (the claims only involve
small integers, where the JS double representation is exact).  `undef`
stands for the JS `undefined` produced by optional chaining and by object
entries whose defining expression is undefined; `JSON.parse` itself never
produces it. -/

/-- A JSON number, kept as the mantissa and decimal exponent read off the
literal (the value is `mant * 10 ^ exp10`).  This is exact for the whole
JSON decimal grammar; distinct spellings of one value stay distinct in the
model, which no claim exercises (the claims only involve small integer
literals, where the JS double representation is also exact). -/
structure JNum where
  mant : Int
  exp10 : Int
deriving DecidableEq

inductive Json where
  | null
  | undef
  | bool (b : Bool)
  | num (q : JNum)
  | str (s : String)
  | arr (elems : List Json)
  | obj (fields : List (String × Json))

/-- JS property definition: a duplicate key keeps its position and takes
the new value, a fresh key is appended.  Used both for object literals
built by `JSON.parse` and for object spread. -/
def setKey (l : List (String × Json)) (k : String) (v : Json) :
    List (String × Json) :=
  if (l.lookup k).isSome then
    l.map fun kv => if kv.1 = k then (kv.1, v) else kv
  else l ++ [(k, v)]

/-- JSON whitespace. -/
def isJsonWs (c : Char) : Bool := c == ' ' || c == '\t' || c == '\n' || c == '\r'

def skipWs (s : List Char) : List Char := s.dropWhile isJsonWs

def isDigitChar (c : Char) : Bool := '0' ≤ c ∧ c ≤ '9'

def digitsToNat (l : List Char) : Nat :=
  l.foldl (fun a c => a * 10 + (c.toNat - 48)) 0

def hexVal (c : Char) : Option Nat :=
  if '0' ≤ c ∧ c ≤ '9' then some (c.toNat - 48)
  else if 'a' ≤ c ∧ c ≤ 'f' then some (c.toNat - 87)
  else if 'A' ≤ c ∧ c ≤ 'F' then some (c.toNat - 55)
  else none

/-- JSON string body after the opening quote: plain characters above
control range, the short escapes, and 4-hex-digit unicode escapes. -/
def pStr : Nat → List Char → Option (List Char × List Char)
  | 0, _ => none
  | _+1, [] => none
  | fuel+1, c :: t =>
    if c = '"' then some ([], t)
    else if c = '\\' then
      match t with
      | 'u' :: h1 :: h2 :: h3 :: h4 :: r =>
        match hexVal h1, hexVal h2, hexVal h3, hexVal h4 with
        | some a, some b, some d, some e =>
          (pStr fuel r).map fun pr =>
            (Char.ofNat (((a * 16 + b) * 16 + d) * 16 + e) :: pr.1, pr.2)
        | _, _, _, _ => none
      | e :: r =>
        let esc : Option Char :=
          if e = '"' then some '"'
          else if e = '\\' then some '\\'
          else if e = '/' then some '/'
          else if e = 'b' then some (Char.ofNat 8)
          else if e = 'f' then some (Char.ofNat 12)
          else if e = 'n' then some '\n'
          else if e = 'r' then some '\r'
          else if e = 't' then some '\t'
          else none
        match esc with
        | some ch => (pStr fuel r).map fun pr => (ch :: pr.1, pr.2)
        | none => none
      | [] => none
    else if c.toNat < 32 then none
    else (pStr fuel t).map fun pr => (c :: pr.1, pr.2)

/-- Assemble a JSON number from sign, integer part, fraction digits (value
and count) and decimal exponent: the value is
`(ip * 10 ^ k + fp) / 10 ^ k * 10 ^ e`, stored exactly. -/
def mkNum (neg : Bool) (ip fp : Nat) (k : Nat) (e : Int) : JNum :=
  let m : Int := Int.ofNat (ip * 10 ^ k + fp)
  { mant := if neg then -m else m, exp10 := e - (k : Int) }

/-- Optional fraction part: a dot must be followed by at least one digit;
no dot consumes nothing. -/
def pFrac (s : List Char) : Option (Nat × Nat × List Char) :=
  match s with
  | '.' :: t =>
    let ds := t.takeWhile isDigitChar
    if ds = [] then none else some (digitsToNat ds, ds.length, t.drop ds.length)
  | _ => some (0, 0, s)

/-- Optional exponent part: e or E, optional sign, at least one digit. -/
def pExp (s : List Char) : Option (Int × List Char) :=
  match s with
  | c :: t =>
    if c = 'e' ∨ c = 'E' then
      let signed : Bool × List Char :=
        match t with
        | '+' :: u => (false, u)
        | '-' :: u => (true, u)
        | _ => (false, t)
      let ds := signed.2.takeWhile isDigitChar
      if ds = [] then none
      else
        let mag : Int := Int.ofNat (digitsToNat ds)
        some (if signed.1 then -mag else mag, signed.2.drop ds.length)
    else some (0, s)
  | [] => some (0, [])

/-- JSON number: optional minus, an integer part that is a single zero or
starts with a nonzero digit, optional fraction, optional exponent. -/
def pNum (s : List Char) : Option (JNum × List Char) :=
  let signed : Bool × List Char :=
    match s with
    | '-' :: t => (true, t)
    | _ => (false, s)
  match signed.2 with
  | c :: t =>
    if c = '0' then
      match pFrac t with
      | none => none
      | some (fp, k, r1) =>
        match pExp r1 with
        | none => none
        | some (e, r2) => some (mkNum signed.1 0 fp k e, r2)
    else if isDigitChar c then
      let ds := t.takeWhile isDigitChar
      let ip := digitsToNat (c :: ds)
      match pFrac (t.drop ds.length) with
      | none => none
      | some (fp, k, r1) =>
        match pExp r1 with
        | none => none
        | some (e, r2) => some (mkNum signed.1 ip fp k e, r2)
    else none
  | [] => none

mutual

/-- JSON value with leading whitespace skipped. -/
def pVal : Nat → List Char → Option (Json × List Char)
  | 0, _ => none
  | fuel+1, s =>
    match skipWs s with
    | [] => none
    | c :: t =>
      if c = lbrace then
        match skipWs t with
        | d :: r =>
          if d = rbrace then some (Json.obj [], r)
          else pMembers fuel (skipWs t) []
        | [] => none
      else if c = '[' then
        match skipWs t with
        | ']' :: r => some (Json.arr [], r)
        | _ => pElems fuel (skipWs t) []
      else if c = '"' then
        (pStr (t.length + 1) t).map fun pr => (Json.str (String.mk pr.1), pr.2)
      else if c = 't' then
        if t.take 3 = ['r', 'u', 'e'] then some (Json.bool true, t.drop 3) else none
      else if c = 'f' then
        if t.take 4 = ['a', 'l', 's', 'e'] then some (Json.bool false, t.drop 4)
        else none
      else if c = 'n' then
        if t.take 3 = ['u', 'l', 'l'] then some (Json.null, t.drop 3) else none
      else
        (pNum (c :: t)).map fun pr => (Json.num pr.1, pr.2)

/-- Object members after the opening brace (non-empty object): quoted key,
colon, element, then comma to continue or closing brace to finish.
Duplicate keys follow JS semantics via `setKey`. -/
def pMembers : Nat → List Char → List (String × Json) →
    Option (Json × List Char)
  | 0, _, _ => none
  | fuel+1, s, acc =>
    match skipWs s with
    | '"' :: t =>
      match pStr (t.length + 1) t with
      | none => none
      | some (key, r1) =>
        match skipWs r1 with
        | ':' :: r2 =>
          match pVal fuel r2 with
          | none => none
          | some (v, r3) =>
            let acc2 := setKey acc (String.mk key) v
            match skipWs r3 with
            | ',' :: r4 => pMembers fuel r4 acc2
            | d :: r4 => if d = rbrace then some (Json.obj acc2, r4) else none
            | [] => none
        | _ => none
    | _ => none

/-- Array elements after the opening bracket (non-empty array). -/
def pElems : Nat → List Char → List Json → Option (Json × List Char)
  | 0, _, _ => none
  | fuel+1, s, acc =>
    match pVal fuel s with
    | none => none
    | some (v, r1) =>
      match skipWs r1 with
      | ',' :: r2 => pElems fuel r2 (acc ++ [v])
      | ']' :: r2 => some (Json.arr (acc ++ [v]), r2)
      | _ => none

end

/-- `JSON.parse`: one value, nothing but whitespace after it. -/
def parseJSON (s : List Char) : Option Json :=
  match pVal (s.length + 1) s with
  | none => none
  | some (j, r) => if skipWs r = [] then some j else none

/-- JS truthiness of a parsed value (optional-chaining `undefined`
included). -/
def truthy : Json → Bool
  | .null => false
  | .undef => false
  | .bool b => b
  | .num q => q.mant != 0
  | .str s => s != ""
  | .arr _ => true
  | .obj _ => true

/-- Property read `j.k`: `undefined` unless `j` is an object carrying the
key. -/
def jget (j : Json) (k : String) : Json :=
  match j with
  | .obj l => (l.lookup k).getD Json.undef
  | _ => Json.undef

/-- JS object spread: assign every property of `over`, in order, onto
`base`. -/
def spreadObj (base over : List (String × Json)) : List (String × Json) :=
  over.foldl (fun acc kv => setKey acc kv.1 kv.2) base

/-- The options object built by ChartRenderer: responsive and
maintain-aspect-ratio defaults, a plugins object with the fixed legend and
the payload's `options.plugins.title`, the payload's `options.scales`, and
then the payload options spread over the lot.  Spreading a non-object
payload `options` contributes nothing (string-valued options, which would
spread index properties in JS, are outside the claims). -/
def chartOptions (j : Json) : List (String × Json) :=
  let o := jget j "options"
  let payloadOpts : List (String × Json) :=
    match o with
    | .obj l => l
    | _ => []
  let base : List (String × Json) :=
    [("responsive", Json.bool true),
     ("maintainAspectRatio", Json.bool false),
     ("plugins", Json.obj
        [("legend", Json.obj
            [("position", Json.str "bottom"),
             ("labels", Json.obj
                [("boxWidth", Json.num ⟨12, 0⟩),
                 ("boxHeight", Json.num ⟨12, 0⟩)])]),
         ("title", jget (jget o "plugins") "title")]),
     ("scales", jget o "scales")]
  spreadObj base payloadOpts

structure ChartPayload where
  type : Json
  data : Json
  options : List (String × Json)
  height : JNum

/-- ChartRenderer's decode step: parse the JSON (a parse failure is caught
and becomes the error result `none`), reject falsy `type` or `data`,
default a non-numeric or missing `height` to 360, and merge the options.
The error is a value, never an exception. -/
def decodeChartPayload (s : String) : Option ChartPayload :=
  match parseJSON s.data with
  | none => none
  | some j =>
    if truthy (jget j "type") && truthy (jget j "data") then
      some
        { type := jget j "type"
          data := jget j "data"
          options := chartOptions j
          height :=
            match jget j "height" with
            | Json.num q => q
            | _ => ⟨360, 0⟩ }
    else none

/-! ## Substring test used to state the padding claim. -/

/-- Boolean infix test on character lists. -/
def hasInfixL (pat s : List Char) : Bool :=
  (List.range (s.length + 1)).any fun i => ((s.drop i).take pat.length) == pat

/-- Boolean substring test on strings. -/
def hasSub (pat s : String) : Bool := hasInfixL pat.data s.data

/-! ## Helper lemmas about the guard. -/

/-- `splitTicks` really decomposes its input: the text before, the three
backticks, the text after. -/
theorem splitTicks_some :
    ∀ (s p r : List Char), splitTicks s = some (p, r) →
      s = p ++ tick :: tick :: tick :: r := by
  intro s
  induction s with
  | nil => intro p r h; simp [splitTicks] at h
  | cons c t ih =>
    intro p r h
    by_cases hc : c = tick ∧ t.take 2 = [tick, tick]
    · rw [splitTicks, if_pos hc] at h
      obtain ⟨hp, hr⟩ := Prod.mk.injEq .. ▸ Option.some.injEq .. ▸ h
      have ht : t = tick :: tick :: t.drop 2 := by
        conv_lhs => rw [← List.take_append_drop 2 t, hc.2]
        rfl
      subst hp
      subst hr
      rw [hc.1]
      simpa using ht
    · rw [splitTicks, if_neg hc] at h
      cases hrec : splitTicks t with
      | none => rw [hrec] at h; cases h
      | some pr =>
        obtain ⟨p1, r1⟩ := pr
        rw [hrec] at h
        obtain ⟨hp, hr⟩ := Prod.mk.injEq .. ▸ Option.some.injEq .. ▸ h
        subst hp
        subst hr
        simpa using ih p1 r1 hrec

/-- Concatenating the spans of the fuelled guard split reproduces the
input, whatever the fuel. -/
theorem guardSplitF_flatten :
    ∀ (fuel : Nat) (s : List Char),
      ((guardSplitF fuel s).map Span.content).flatten = s := by
  intro fuel
  induction fuel with
  | zero => intro s; simp [guardSplitF, Span.content]
  | succ n ih =>
    intro s
    cases h1 : splitTicks s with
    | none => simp [guardSplitF, h1, Span.content]
    | some pr1 =>
      obtain ⟨pre, u⟩ := pr1
      cases h2 : splitTicks u with
      | none => simp [guardSplitF, h1, h2, Span.content]
      | some pr2 =>
        obtain ⟨body, post⟩ := pr2
        have e1 := splitTicks_some s pre u h1
        have e2 := splitTicks_some u body post h2
        simp only [guardSplitF, h1, h2, List.map_cons, List.flatten_cons,
          Span.content, ih post]
        rw [e1, e2]
        simp [List.append_assoc]

/-- A member of a list contributes an infix to the flattened image of the
list. -/
theorem mem_map_flatten_infix {α β : Type} (f : α → List β) :
    ∀ (l : List α) (x : α), x ∈ l → f x <:+: (l.map f).flatten := by
  intro l
  induction l with
  | nil => intro x hx; cases hx
  | cons y ys ih =>
    intro x hx
    rcases List.mem_cons.mp hx with h | h
    · subst h
      exact ⟨[], (ys.map f).flatten, by simp⟩
    · obtain ⟨a, b, hab⟩ := ih x h
      exact ⟨f y ++ a, b, by simp [← hab, List.append_assoc]⟩

/-! ## The claims. -/

/-- Claim C1.  Normalization is *not* idempotent: on the lone-dollar block
document the first pass of `preprocessLaTeX` collapses the emitted display
markers to single dollars (the step-4 string replacements write the double
dollar, which JS replacement strings read as an escaped single dollar), and
the second pass re-fires the lone-dollar-block rule on the damaged output,
growing the padding.  This evaluates the code at the failing input. -/
theorem c1_normalization_not_idempotent :
    preprocessLaTeX (preprocessLaTeX "$\nx\n$") ≠ preprocessLaTeX "$\nx\n$" ∧
    preprocessLaTeX "$\nx\n$" = "\n$\n\nx\n\n$\n" ∧
    preprocessLaTeX (preprocessLaTeX "$\nx\n$") = "\n\n$\n\nx\n\n$\n\n" :=
  ⟨by decide, by decide, by decide⟩

/-- Claim C2.  The blank-line padding rule destroys the display markers
instead of padding them: the replacement strings of step 4 contain the
two-dollar escape, which JS reads as one literal dollar, so
`text$$...$$more` comes out with single dollars and the promised
blank-line-padded double-dollar substrings never appear; `\[x\]` likewise
ends up as a single-dollar block instead of `$$\nx\n$$`.  This evaluates
the code at the failing inputs. -/
theorem c2_padding_collapses_display_markers :
    preprocessLaTeX "text$$\nX\n$$more" = "text\n\n$\nX\n\n$more" ∧
    hasSub "\n\n$$" (preprocessLaTeX "text$$\nX\n$$more") = false ∧
    hasSub "$$\n\n" (preprocessLaTeX "text$$\nX\n$$more") = false ∧
    preprocessLaTeX "\\[x\\]" = "\n$\n\nx\n\n$\n" :=
  ⟨by decide, by decide, by decide, by decide⟩

/-- Claim C3, counterexample.  A document with an unclosed fence is *not*
passed through byte-identical: the fence regex finds no match, the whole
document stays a non-code segment, and the normalizer rewrites the
backslash-paren math inside the "code" remainder. -/
theorem c3_unclosed_fence_rewritten :
    preprocessLaTeX "```\n\\(x\\)" = "```\n$x$" ∧
    preprocessLaTeX "```\n\\(x\\)" ≠ "```\n\\(x\\)" :=
  ⟨by decide, by decide⟩

/-- Claim C3, amended.  When a document contains an opening fence but no
closing fence anywhere after it, the guard yields a single Prose span
holding the whole document (so the remainder is classified Prose, not
Code, and is handed to the normalizer); no error is raised, the split is
total. -/
theorem c3_unclosed_fence_stays_prose (d pre u : List Char)
    (h1 : splitTicks d = some (pre, u)) (h2 : splitTicks u = none) :
    guardSplit d = [Span.prose d] := by
  simp [guardSplit, guardSplitF, h1, h2]

/-- Witness for the amended C3 at a concrete unclosed-fence document. -/
theorem c3_unclosed_fence_stays_prose_witness :
    splitTicks ("```ab".data) = some ([], "ab".data) ∧
    splitTicks ("ab".data) = none ∧
    guardSplit ("```ab".data) = [Span.prose ("```ab".data)] :=
  ⟨by decide, by decide,
    c3_unclosed_fence_stays_prose ("```ab".data) [] ("ab".data)
      (by decide) (by decide)⟩

/-- Claim C4.  Guard losslessness: concatenating, in order, the contents
of all spans of the guard's split reproduces the document exactly. -/
theorem c4_guard_lossless (d : List Char) :
    ((guardSplit d).map Span.content).flatten = d :=
  guardSplitF_flatten (d.length + 1) d

/-- Claim C5.  Code-span immutability: every Code span of the guard's
split appears byte-identical (as a contiguous substring) in the output of
`preprocessLaTeX`; by construction the per-span action is the identity on
Code spans, so no rewrite touches a fenced code span. -/
theorem c5_code_spans_intact (d c : List Char)
    (h : Span.code c ∈ guardSplit d) : c <:+: preprocessL d := by
  have hi := mem_map_flatten_infix renderSpan (guardSplit d) (Span.code c) h
  simpa [renderSpan] using hi

/-- Witness for C5 at a document with one fenced code span. -/
theorem c5_code_spans_intact_witness :
    Span.code ("```x```".data) ∈ guardSplit ("a```x```b".data) ∧
    ("```x```".data <:+: preprocessL ("a```x```b".data)) :=
  ⟨by decide, c5_code_spans_intact ("a```x```b".data) ("```x```".data) (by decide)⟩

/-- Claim C6, counterexample.  The splitter's dollar-pair regex class
excludes only the dollar character, not the newline, so the match in
`$a\nb$` crosses the newline and produces a Math run, contrary to the
claim that the text stays a literal Text run. -/
theorem c6_newline_math_counterexample :
    Run.math "a\nb" ∈ splitInline "$a\nb$" ∧
    splitInline "$a\nb$" ≠ [Run.text "$a\nb$"] :=
  ⟨by decide, by decide⟩

/-- Claim C6, amended.  A Math run comes from a non-greedy dollar-pair
match with at least one non-dollar character and no embedded dollar, but
the match may cross newlines: `$a\nb$` splits into an empty Text run, the
Math run `a\nb`, and an empty Text run. -/
theorem c6_matches_cross_newlines :
    splitInline "$a\nb$" = [Run.text "", Run.math "a\nb", Run.text ""] := by
  decide

/-- Claim C7.  Splitter correctness and malformed-input tolerance:
`a $b$ c` yields Text/Math/Text with the delimiters stripped from the Math
run; an unterminated dollar yields one literal Text run; the empty math
body `$$` fails the at-least-one-character rule and stays literal text. -/
theorem c7_splitter_cases :
    splitInline "a $b$ c" = [Run.text "a ", Run.math "b", Run.text " c"] ∧
    splitInline "a $b c" = [Run.text "a $b c"] ∧
    splitInline "$$" = [Run.text "$$"] :=
  ⟨by decide, by decide, by decide⟩

/-- Claim C8.  Dispatcher totality and routing table: `dispatch` is a
total function on tags; mermaid, plotly, chartjs and chart route to their
targets, any other non-empty tag routes to highlighted code carrying the
tag, and the empty tag routes to verbatim code.  Matching is exact and
case-sensitive (see the witness at "Mermaid"). -/
theorem c8_dispatch_table :
    dispatch "mermaid" = RenderTarget.diagram ∧
    dispatch "plotly" = RenderTarget.interactiveChart ∧
    dispatch "chartjs" = RenderTarget.staticChart ∧
    dispatch "chart" = RenderTarget.staticChart ∧
    dispatch "" = RenderTarget.verbatimCode ∧
    ∀ lang : String, lang ≠ "mermaid" → lang ≠ "plotly" → lang ≠ "chartjs" →
      lang ≠ "chart" → lang ≠ "" →
      dispatch lang = RenderTarget.highlightedCode lang := by
  refine ⟨by decide, by decide, by decide, by decide, by decide, ?_⟩
  intro lang h1 h2 h3 h4 h5
  simp [dispatch, h1, h2, h3, h4, h5]

/-- Witness for C8: a capitalised tag misses the case-sensitive table and
falls through to highlighted code. -/
theorem c8_dispatch_table_witness :
    dispatch "Mermaid" = RenderTarget.highlightedCode "Mermaid" :=
  c8_dispatch_table.2.2.2.2.2 "Mermaid" (by decide) (by decide) (by decide)
    (by decide) (by decide)

/-- Whether a parsed value is an object carrying the key. -/
def hasKey (j : Json) (k : String) : Bool :=
  match j with
  | .obj l => (l.lookup k).isSome
  | _ => false

/-- Claim C9, counterexample.  The decoder also errors when `type` is
*present* but falsy: the body below is valid JSON and its object carries
both `type` and `data`, yet decoding returns the error result, refuting
"DecodeError exactly when the body is not valid JSON or the parsed object
lacks `type` or `data`". -/
theorem c9_falsy_type_counterexample :
    decodeChartPayload "\x7b\"type\":\"\",\"data\":\x7b\x7d\x7d" = none ∧
    (parseJSON ("\x7b\"type\":\"\",\"data\":\x7b\x7d\x7d".data)).map
        (fun j => (hasKey j "type", hasKey j "data")) = some (true, true) :=
  ⟨Option.isNone_iff_eq_none.mp (by decide), by decide⟩

/-- Claim C9, amended.  `decodeChartPayload` returns the typed error
result exactly when the body fails to parse as JSON or the parsed value's
`type` or `data` member is missing or falsy; it never throws.  On success
a missing height defaults to 360, a numeric height is kept, and
payload-supplied options override the built-in visual defaults key-by-key
at the top level (responsive is overridden by the payload below while the
untouched maintainAspectRatio default survives). -/
theorem c9_decode_contract :
    (∀ s : String,
      decodeChartPayload s = none ↔
        parseJSON s.data = none ∨
          ∃ j, parseJSON s.data = some j ∧
            (truthy (jget j "type") && truthy (jget j "data")) = false) ∧
    (decodeChartPayload "\x7b\"type\":\"bar\",\"data\":\x7b\x7d\x7d").map
        ChartPayload.height = some ⟨360, 0⟩ ∧
    decodeChartPayload "not json" = none ∧
    (decodeChartPayload
        "\x7b\"type\":\"bar\",\"data\":\x7b\x7d,\"height\":400\x7d").map
        ChartPayload.height = some ⟨400, 0⟩ ∧
    (decodeChartPayload
        "\x7b\"type\":\"bar\",\"data\":\x7b\x7d,\"options\":\x7b\"responsive\":false,\"animation\":true\x7d\x7d").map
        (fun p => ((p.options.lookup "responsive").map truthy,
          (p.options.lookup "maintainAspectRatio").map truthy,
          (p.options.lookup "animation").map truthy)) =
      some (some false, some false, some true) := by
  refine ⟨?_, by decide, Option.isNone_iff_eq_none.mp (by decide), by decide,
    by decide⟩
  intro s
  cases h : parseJSON s.data with
  | none => simp [decodeChartPayload, h]
  | some j =>
    simp only [decodeChartPayload, h]
    by_cases ht : (truthy (jget j "type") && truthy (jget j "data")) = true
    · rw [if_pos ht]
      constructor
      · intro hn; exact absurd hn (by simp)
      · rintro (hn | ⟨j2, hj2, hc⟩)
        · exact absurd hn (by simp)
        · obtain rfl : j = j2 := by simpa using hj2
          rw [ht] at hc
          exact absurd hc (by simp)
    · rw [if_neg ht]
      constructor
      · intro _
        right
        exact ⟨j, rfl, by simpa using ht⟩
      · intro _
        rfl

/-- Claim C10.  The decoder rejects present-but-falsy required fields
(null, zero, false, and the empty string, here on `data`), and a `height`
that is present but not a number (the string "400") is silently replaced
by the default 360. -/
theorem c10_falsy_fields_and_height_default :
    decodeChartPayload "\x7b\"type\":null,\"data\":\x7b\x7d\x7d" = none ∧
    decodeChartPayload "\x7b\"type\":0,\"data\":\x7b\x7d\x7d" = none ∧
    decodeChartPayload "\x7b\"type\":false,\"data\":\x7b\x7d\x7d" = none ∧
    decodeChartPayload "\x7b\"type\":\"bar\",\"data\":\"\"\x7d" = none ∧
    (decodeChartPayload
        "\x7b\"type\":\"bar\",\"data\":\x7b\x7d,\"height\":\"400\"\x7d").map
        ChartPayload.height = some ⟨360, 0⟩ :=
  ⟨Option.isNone_iff_eq_none.mp (by decide),
    Option.isNone_iff_eq_none.mp (by decide),
    Option.isNone_iff_eq_none.mp (by decide),
    Option.isNone_iff_eq_none.mp (by decide), by decide⟩

end Matopt
